import Mathlib

/-!
Verification development for the survey-preview parsing/reconciliation engine
(`src/survey-builder/src/components/preview/PreviewPanel.tsx`).

The TypeScript source works over JavaScript strings and regular expressions.
The embedding below works over `List Char`; every regular expression of the
source is translated into an explicit matcher that reproduces the JavaScript
engine's leftmost-match and backtracking behaviour for that concrete pattern.
-/

set_option maxRecDepth 4000

namespace Survey

/-- The `Question` record, `PreviewPanel.tsx` lines 11-18. -/
structure Question where
  id : String
  number : String
  text : String
  options : List String
  type : String
  isOpen : Bool
deriving DecidableEq

/-- The `QuestionGroup` record, `PreviewPanel.tsx` lines 21-26. -/
structure QuestionGroup where
  startNum : Nat
  endNum : Nat
  questions : List Question
  isExpanded : Bool
deriving DecidableEq

/-- JavaScript whitespace class: the characters matched by `\s` and removed
by `String.prototype.trim`. -/
def isWs (c : Char) : Bool :=
  let n := c.toNat
  n == 32 || n == 9 || n == 10 || n == 13 || n == 11 || n == 12 ||
  n == 0xa0 || n == 0x1680 || (decide (0x2000 ≤ n) && decide (n ≤ 0x200a)) ||
  n == 0x2028 || n == 0x2029 || n == 0x202f || n == 0x205f ||
  n == 0x3000 || n == 0xfeff

/-- JavaScript `String.prototype.trim` on a character list. -/
def trimChars (cs : List Char) : List Char :=
  ((cs.dropWhile isWs).reverse.dropWhile isWs).reverse

/-- Boolean list-prefix test used by the substring test below. -/
def isPrefListB : List Char → List Char → Bool
  | [], _ => true
  | _ :: _, [] => false
  | a :: as, b :: bs => a == b && isPrefListB as bs

/-- JavaScript `String.prototype.includes`: `listHasSub hay sub` is true when
`sub` occurs contiguously in `hay`. -/
def listHasSub : List Char → List Char → Bool
  | [], sub => sub.isEmpty
  | h :: t, sub => isPrefListB sub (h :: t) || listHasSub t sub

/-- Quote characters of the array-form pre-normalization (line 141-146). -/
def isQuote (c : Char) : Bool := c == '\'' || c == '"'

/-- Drop one trailing occurrence of `c`, as the anchored `X$` regex branch does. -/
def dropLastIf (cs : List Char) (c : Char) : List Char :=
  match cs.getLast? with
  | some x => if x == c then cs.dropLast else cs
  | none => cs

/-- `replace(/^\[|\]$/g, '')`: one leading `[` and one trailing `]` removed. -/
def stripBrackets (cs : List Char) : List Char :=
  dropLastIf (match cs with | '[' :: t => t | l => l) ']'

/-- `replace(/^['"]|['"]$/g, '')`: one leading and one trailing quote removed. -/
def stripEdgeQuotes (cs : List Char) : List Char :=
  let a := match cs with
    | c :: t => if isQuote c then t else c :: t
    | [] => []
  match a.getLast? with
  | some x => if isQuote x then a.dropLast else a
  | none => a

/-- After an opening quote, try to match the rest of `['"]\s*,\s*['"]`:
whitespace, a comma, whitespace, a closing quote.  Returns the remainder. -/
def trySep (cs : List Char) : Option (List Char) :=
  match cs.dropWhile isWs with
  | ',' :: r2 =>
    match r2.dropWhile isWs with
    | q :: r4 => if isQuote q then some r4 else none
    | [] => none
  | _ => none

/-- Fuelled scan for `replace(/['"]\s*,\s*['"]/g, '\n')`; the fuel is the
input length, which bounds the number of scan steps. -/
def sepGoFuel : Nat → List Char → List Char
  | 0, cs => cs
  | _ + 1, [] => []
  | f + 1, c :: cs =>
    if isQuote c then
      match trySep cs with
      | some rest => '\n' :: sepGoFuel f rest
      | none => c :: sepGoFuel f cs
    else c :: sepGoFuel f cs

/-- `replace(/['"]\s*,\s*['"]/g, '\n')` over a whole character list. -/
def sepReplace (cs : List Char) : List Char := sepGoFuel cs.length cs

/-- `replace(/\\n/g, '\n')`: literal backslash-n becomes a newline. -/
def rmEscN : List Char → List Char
  | '\\' :: 'n' :: cs => '\n' :: rmEscN cs
  | c :: cs => c :: rmEscN cs
  | [] => []

/-- The characters of the separator `"', '"` probed by `includes`. -/
def sepSQ : List Char := ['\'', ',', ' ', '\'']

/-- The characters of the separator `'", "'` probed by `includes`. -/
def sepDQ : List Char := ['"', ',', ' ', '"']

/-- Array-form pre-normalization of the whole draft (lines 140-147): when the
draft looks like a serialized array of quoted strings, strip brackets and edge
quotes, turn quote-comma-quote separators into newlines, and unescape `\n`. -/
def preNormalize (cs : List Char) : List Char :=
  if listHasSub cs sepSQ || listHasSub cs sepDQ then
    rmEscN (sepReplace (stripEdgeQuotes (stripBrackets cs)))
  else cs

/-- JavaScript `split('\n')` on a character list (line 149). -/
def splitLines : List Char → List (List Char)
  | [] => [[]]
  | c :: cs =>
    if c == '\n' then [] :: splitLines cs
    else
      match splitLines cs with
      | l :: ls => (c :: l) :: ls
      | [] => [[c]]

/-- The closed set of type codes of `TYPE_CODE_PATTERN` (line 154). -/
def typeCodes : List String := ["SC", "MA", "OQ", "RS", "DC", "RK", "MG"]

/-- Try to match `\((SC|MA|OQ|RS|DC|RK|MG)(?:\(\d+\))?\)` (case-insensitive)
at the head of the list; returns the upper-cased code and the remainder. -/
def typeTokenAt : List Char → Option (String × List Char)
  | '(' :: a :: b :: rest =>
    let code := String.mk [a.toUpper, b.toUpper]
    if code ∈ typeCodes then
      match rest with
      | ')' :: r => some (code, r)
      | '(' :: r2 =>
        let ds := r2.takeWhile Char.isDigit
        match r2.dropWhile Char.isDigit with
        | ')' :: ')' :: r4 => if ds.isEmpty then none else some (code, r4)
        | _ => none
      | _ => none
    else none
  | _ => none

/-- `line.match(TYPE_CODE_PATTERN)` (line 191): first occurrence anywhere. -/
def findTypeCode : List Char → Option String
  | [] => none
  | c :: cs =>
    match typeTokenAt (c :: cs) with
    | some (code, _) => some code
    | none => findTypeCode cs

/-- Line 192: `typeMatch ? typeMatch[1].toUpperCase() : 'SC'`. -/
def extractType (line : List Char) : String := (findTypeCode line).getD "SC"

/-- Fuelled scan for the global removal of type-code tokens (lines 197, 244). -/
def rmTypeFuel : Nat → List Char → List Char
  | 0, cs => cs
  | _ + 1, [] => []
  | f + 1, c :: cs =>
    match typeTokenAt (c :: cs) with
    | some (_, rest) => rmTypeFuel f rest
    | none => c :: rmTypeFuel f cs

/-- `replace(/\((?:SC|MA|OQ|RS|DC|RK|MG)(?:\(\d+\))?\)/gi, '')`. -/
def rmTypeCodes (cs : List Char) : List Char := rmTypeFuel cs.length cs

/-- `replace(/\*\*/g, '')`: left-to-right non-overlapping removal of `**`. -/
def rmStars : List Char → List Char
  | '*' :: '*' :: cs => rmStars cs
  | c :: cs => c :: rmStars cs
  | [] => []

/-- Find the first `]` and return the remainder after it. -/
def findCloseBr : List Char → Option (List Char)
  | [] => none
  | c :: cs => if c == ']' then some cs else findCloseBr cs

/-- Fuelled scan for `replace(/\[.*?\]/g, '')`: at a `[`, lazily remove up to
the nearest `]`; a `[` with no later `]` is kept. -/
def rmBrFuel : Nat → List Char → List Char
  | 0, cs => cs
  | _ + 1, [] => []
  | f + 1, c :: cs =>
    if c == '[' then
      match findCloseBr cs with
      | some rest => rmBrFuel f rest
      | none => c :: rmBrFuel f cs
    else c :: rmBrFuel f cs

/-- `replace(/\[.*?\]/g, '')` over a whole character list. -/
def rmBrackets (cs : List Char) : List Char := rmBrFuel cs.length cs

/-- Question-text cleanup of lines 194-198: strip `**`, bracketed
annotations, embedded type-code tokens, then trim. -/
def cleanQuestionText (t : List Char) : List Char :=
  trimChars (rmTypeCodes (rmBrackets (rmStars t)))

/-- Tail matcher for `\s*(.+)`: prefer maximal whitespace; if that leaves
nothing for `(.+)`, the engine backtracks one whitespace character, which then
becomes the whole capture. -/
def tryWsText (r : List Char) : Option (List Char) :=
  let rest := r.dropWhile isWs
  if rest.isEmpty then
    if r.isEmpty then none else some [r.getLastD ' ']
  else some rest

/-- Tail matcher for `\s+(.+)`: at least one whitespace character must remain
consumed after backtracking. -/
def tryWs1Text (r : List Char) : Option (List Char) :=
  let w := r.takeWhile isWs
  let rest := r.dropWhile isWs
  if w.isEmpty then none
  else if rest.isEmpty then
    if decide (2 ≤ w.length) then some [w.getLastD ' '] else none
  else some rest

/-- Tail matcher for `\*?\*?\s*(.+)` with the JavaScript preference order:
consume two stars, then one, then none. -/
def tryStarsWsText (r : List Char) : Option (List Char) :=
  match r with
  | '*' :: '*' :: r2 => tryWsText r2 <|> tryWsText ('*' :: r2) <|> tryWsText ('*' :: '*' :: r2)
  | '*' :: r2 => tryWsText r2 <|> tryWsText ('*' :: r2)
  | _ => tryWsText r

/-- Tail matcher for `[.:]?\*?\*?\s*(.+)` (pattern `문항 ...`, line 158). -/
def tailStars (r : List Char) : Option (List Char) :=
  match r with
  | c :: r2 =>
    if c == '.' || c == ':' then tryStarsWsText r2 <|> tryStarsWsText (c :: r2)
    else tryStarsWsText (c :: r2)
  | [] => none

/-- Tail matcher for `[.:]?\s*(.+)` (pattern `Q...`, line 159). -/
def tailNoStars (r : List Char) : Option (List Char) :=
  match r with
  | c :: r2 =>
    if c == '.' || c == ':' then tryWsText r2 <|> tryWsText (c :: r2)
    else tryWsText (c :: r2)
  | [] => none

/-- Backtracking over the digits of the optional `-\d+` part of the number
capture: try keeping `k` digits, from the greedy maximum downwards. -/
def dashLoop (tl : List Char → Option (List Char)) (d1 d2 r2 : List Char) :
    Nat → Option (List Char × List Char)
  | 0 => none
  | k + 1 =>
    match tl (d2.drop (k + 1) ++ r2) with
    | some c => some (d1 ++ '-' :: d2.take (k + 1), c)
    | none => dashLoop tl d1 d2 r2 k

/-- Match `(?:-\d+)?` followed by the given tail, given the already captured
digits `d1` and the remainder `r1`; returns the number capture and the text
capture. -/
def numTail (tl : List Char → Option (List Char)) (d1 r1 : List Char) :
    Option (List Char × List Char) :=
  match r1 with
  | '-' :: r1x =>
    let d2 := r1x.takeWhile Char.isDigit
    let r2 := r1x.dropWhile Char.isDigit
    if d2.isEmpty then (tl r1).map fun c => (d1, c)
    else
      match dashLoop tl d1 d2 r2 d2.length with
      | some res => some res
      | none => (tl r1).map fun c => (d1, c)
  | _ => (tl r1).map fun c => (d1, c)

/-- Backtracking over how many digits `\d+` keeps (greedy maximum first). -/
def d1Loop (tl : List Char → Option (List Char)) (d1 r1 : List Char) :
    Nat → Option (List Char × List Char)
  | 0 => none
  | k + 1 =>
    match numTail tl (d1.take (k + 1)) (d1.drop (k + 1) ++ r1) with
    | some res => some res
    | none => d1Loop tl d1 r1 k

/-- Match `(\d+(?:-\d+)?)` followed by the given tail at the head of `r0`. -/
def matchNumberTail (tl : List Char → Option (List Char)) (r0 : List Char) :
    Option (List Char × List Char) :=
  let d1 := r0.takeWhile Char.isDigit
  if d1.isEmpty then none
  else d1Loop tl d1 (r0.dropWhile Char.isDigit) d1.length

/-- Consume `\*?\*?`: up to two leading stars. -/
def dropStars2 : List Char → List Char
  | '*' :: '*' :: t => t
  | '*' :: t => t
  | t => t

/-- `QUESTION_KEYWORD_PATTERNS[0]`:
`/^\*?\*?문항\s*(\d+(?:-\d+)?)[.:]?\*?\*?\s*(.+)/i` (line 158); returns the
number capture and the text capture. -/
def matchQ1 (line : List Char) : Option (List Char × List Char) :=
  match dropStars2 line with
  | '문' :: '항' :: rest => matchNumberTail tailStars (rest.dropWhile isWs)
  | _ => none

/-- `QUESTION_KEYWORD_PATTERNS[1]`: `/^Q(\d+(?:-\d+)?)[.:]?\s*(.+)/i`
(line 159). -/
def matchQ2 (line : List Char) : Option (List Char × List Char) :=
  match line with
  | c :: rest => if c == 'Q' || c == 'q' then matchNumberTail tailNoStars rest else none
  | [] => none

/-- The question-boundary check of lines 176-183: the two keyword patterns
tried in order, first match wins. -/
def matchBoundary (line : List Char) : Option (List Char × List Char) :=
  match matchQ1 line with
  | some res => some res
  | none => matchQ2 line

/-- The circled numerals 1-12 of the option patterns (line 164). -/
def circled12 : List Char := ['①','②','③','④','⑤','⑥','⑦','⑧','⑨','⑩','⑪','⑫']

/-- The circled numerals 1-10 of the dash fallback pattern (line 234). -/
def circled10 : List Char := ['①','②','③','④','⑤','⑥','⑦','⑧','⑨','⑩']

/-- The glyph class `[①②③④⑤⑥⑦⑧⑨⑩⑪⑫○●]` (lines 245, 365). -/
def glyphSet : List Char := circled12 ++ ['○', '●']

/-- `optionPatterns[0]`: `/^[①②③④⑤⑥⑦⑧⑨⑩⑪⑫]\s*(.+)/`. -/
def tryCircled : List Char → Option (List Char)
  | c :: rest => if circled12.contains c then tryWsText rest else none
  | [] => none

/-- `optionPatterns[1]`: `/^[ⓞ]\s*(.+)/`. -/
def tryEnclosedO : List Char → Option (List Char)
  | c :: rest => if c == 'ⓞ' then tryWsText rest else none
  | [] => none

/-- `optionPatterns[2]`: `/^\(\d+\)\s*(.+)/`. -/
def tryParenNum : List Char → Option (List Char)
  | '(' :: rest =>
    if (rest.takeWhile Char.isDigit).isEmpty then none
    else
      match rest.dropWhile Char.isDigit with
      | ')' :: r3 => tryWsText r3
      | _ => none
  | _ => none

/-- `optionPatterns[3]`: `/^[-•]\s+(.+)/`. -/
def tryDashBullet : List Char → Option (List Char)
  | c :: rest => if c == '-' || c == '•' then tryWs1Text rest else none
  | [] => none

/-- `optionPatterns[4]`: `/^[○●]\s*(.+)/`. -/
def tryCircleFill : List Char → Option (List Char)
  | c :: rest => if c == '○' || c == '●' then tryWsText rest else none
  | [] => none

/-- One-digit alternative of `/^(\d{1,2})[.)]\s+(.+)/` (line 226). -/
def numDotOne : List Char → Option (List Char)
  | s :: r => if s == '.' || s == ')' then tryWs1Text r else none
  | [] => none

/-- Two-digit alternative of `/^(\d{1,2})[.)]\s+(.+)/` (line 226). -/
def numDotTwo : List Char → Option (List Char)
  | b :: s :: r => if b.isDigit && (s == '.' || s == ')') then tryWs1Text r else none
  | _ => none

/-- The bare numeric option pattern `/^(\d{1,2})[.)]\s+(.+)/`, with the greedy
two-digit alternative preferred over the one-digit one. -/
def tryNumDot : List Char → Option (List Char)
  | a :: rest => if a.isDigit then (numDotTwo rest <|> numDotOne rest) else none
  | [] => none

/-- The last-resort dash pattern `/^-\s*[①②③④⑤⑥⑦⑧⑨⑩]?\s*(.+)/` (line 234). -/
def tryDashGlyph : List Char → Option (List Char)
  | '-' :: rest =>
    let w1 := rest.takeWhile isWs
    match rest.dropWhile isWs with
    | g :: r2 =>
      if circled10.contains g then (tryWsText r2 <|> some (g :: r2))
      else some (g :: r2)
    | [] => if w1.isEmpty then none else some [w1.getLastD ' ']
  | _ => none

/-- `replace(/^[①②③④⑤⑥⑦⑧⑨⑩⑪⑫○●]\s*/, '')` (lines 245, 371). -/
def stripLeadGlyph : List Char → List Char
  | c :: rest => if glyphSet.contains c then rest.dropWhile isWs else c :: rest
  | [] => []

/-- The raw option text of lines 215-238: the five option patterns in order,
then the bare numeric pattern, then the dash fallback. -/
def rawOption (line : List Char) : Option (List Char) :=
  tryCircled line <|> tryEnclosedO line <|> tryParenNum line <|> tryDashBullet line <|>
    tryCircleFill line <|> tryNumDot line <|> tryDashGlyph line

/-- Option cleanup of lines 242-246: cut at the branch arrow, strip type-code
tokens and a leading bullet glyph, then trim. -/
def cleanOption (t : List Char) : List Char :=
  trimChars (stripLeadGlyph (rmTypeCodes (t.takeWhile fun c => c != '→')))

/-- The full option extraction for a line inside a question block: the raw
match, cleaned; an option that cleans to the empty string is not produced
(line 248). -/
def extractOption (line : List Char) : Option (List Char) :=
  match rawOption line with
  | some t =>
    let c := cleanOption t
    if c.isEmpty then none else some c
  | none => none

/-- The literal `'주관식'` probed by `line.includes` (line 206). -/
def openKW : List Char := ['주', '관', '식']

/-- The assembler loop of lines 171-257: sequentially classify each line,
flushing the accumulated question on a boundary match and collecting options
otherwise.  `n` is the running `questionId` counter. -/
def parseLoop : List (List Char) → Option Question → Nat → List Question
  | [], cur, _ =>
    match cur with
    | some q => [q]
    | none => []
  | l :: ls, cur, n =>
    let line := trimChars l
    if line.isEmpty then parseLoop ls cur n
    else
      match matchBoundary line with
      | some (num, rest) =>
        let t := extractType line
        let newQ : Question :=
          { id := "q_" ++ Nat.repr n
            number := String.mk num
            text := String.mk (cleanQuestionText rest)
            options := []
            type := t
            isOpen := (t == "OQ") || listHasSub line openKW }
        match cur with
        | some q => q :: parseLoop ls (some newQ) (n + 1)
        | none => parseLoop ls (some newQ) (n + 1)
      | none =>
        match cur with
        | some q =>
          match extractOption line with
          | some opt => parseLoop ls (some { q with options := q.options ++ [String.mk opt] }) n
          | none => parseLoop ls (some q) n
        | none => parseLoop ls none n

/-- `parseSurveyDraft` (lines 133-264): guards for the empty and
whitespace-only draft, array-form pre-normalization, then the line loop. -/
def parseSurveyDraft (draft : String) : List Question :=
  if draft == "" then []
  else if (trimChars draft.data).isEmpty then []
  else parseLoop (splitLines (preNormalize draft.data)) none 0

/-- Fuelled translation of the grouping loop of `groupQuestions`
(lines 267-285); the fuel is the list length, which bounds the number of
slices of size 10. -/
def groupGoF : Nat → List Question → Nat → Nat → List QuestionGroup
  | _, [], _, _ => []
  | 0, _ :: _, _, _ => []
  | f + 1, q :: qs, i, total =>
    { startNum := i + 1, endNum := min (i + 10) total,
      questions := (q :: qs).take 10, isExpanded := i == 0 } ::
      groupGoF f ((q :: qs).drop 10) (i + 10) total

/-- `groupQuestions` (lines 267-285): partition into windows of 10. -/
def groupQuestions (qs : List Question) : List QuestionGroup :=
  groupGoF qs.length qs 0 qs.length

/-- The in-memory state owned by the component: the session id from the
store, the two coupled views (`questions`, `questionGroups`), the two
upstream text fields mirrored by `updateSurveyState`, and the dirty flag
`hasLocalChanges`. -/
structure StoreState where
  sessionId : Option String
  questions : List Question
  questionGroups : List QuestionGroup
  surveyDraft : String
  finalSurvey : String
  hasLocalChanges : Bool
deriving DecidableEq

/-- The shared shape of all four edit operations (lines 301-360): map the
same per-question function over the flat list and over every group's slice,
and set the dirty flag. -/
def mapQuestions (f : Question → Question) (s : StoreState) : StoreState :=
  { s with
    questions := s.questions.map f,
    questionGroups := s.questionGroups.map fun g => { g with questions := g.questions.map f },
    hasLocalChanges := true }

/-- `updateQuestionText` (lines 301-312). -/
def updateQuestionText (qid newText : String) (s : StoreState) : StoreState :=
  mapQuestions (fun q => if q.id == qid then { q with text := newText } else q) s

/-- `updateOption` (lines 314-329).  The source copies the option array and
assigns at `optionIdx`; the UI only invokes it with an in-range index, and
`List.set` is that in-place replacement. -/
def updateOption (qid : String) (optionIdx : Nat) (newText : String) (s : StoreState) : StoreState :=
  mapQuestions (fun q => if q.id == qid then { q with options := q.options.set optionIdx newText } else q) s

/-- `addOption` (lines 331-344): append the placeholder option. -/
def addOption (qid : String) (s : StoreState) : StoreState :=
  mapQuestions (fun q => if q.id == qid then { q with options := q.options ++ ["새 선택지"] } else q) s

/-- The positional filter `options.filter((_, idx) => idx !== optionIdx)` of
`removeOption` (line 349); `k` is the running position.  The JavaScript index
is a number, so the embedding keeps the compared index as an integer. -/
def rmOptGo (i : Int) : Nat → List String → List String
  | _, [] => []
  | k, o :: os => if (k : Int) = i then rmOptGo i (k + 1) os else o :: rmOptGo i (k + 1) os

/-- The `updateFn` closure of `removeOption` (lines 347-353). -/
def rmOptFn (qid : String) (optionIdx : Int) (q : Question) : Question :=
  if q.id == qid then { q with options := rmOptGo optionIdx 0 q.options } else q

/-- `removeOption` (lines 346-360). -/
def removeOption (qid : String) (optionIdx : Int) (s : StoreState) : StoreState :=
  mapQuestions (rmOptFn qid optionIdx) s

/-- The four edit operations of the Reconciliation Store, as one type. -/
inductive EditOp
  | setText (qid newText : String)
  | setOption (qid : String) (idx : Nat) (newText : String)
  | pushOption (qid : String)
  | dropOption (qid : String) (idx : Int)

/-- Dispatch an edit operation to the matching mutator. -/
def applyEdit : EditOp → StoreState → StoreState
  | .setText qid t, s => updateQuestionText qid t s
  | .setOption qid i t, s => updateOption qid i t s
  | .pushOption qid, s => addOption qid s
  | .dropOption qid i, s => removeOption qid i s

/-- The fixed circled-numeral strings of the serializer (line 364). -/
def circledNumbers : List String :=
  ["①","②","③","④","⑤","⑥","⑦","⑧","⑨","⑩","⑪","⑫"]

/-- Line 372: `optIdx < 12 ? circledNumbers[optIdx] : ` then `(optIdx+1)`
parenthesized. -/
def optNum (optIdx : Nat) : String :=
  if optIdx < 12 then circledNumbers.getD optIdx ""
  else "(" ++ Nat.repr (optIdx + 1) ++ ")"

/-- Line 371: `opt.replace(numberPattern, '').trim()`. -/
def cleanOptText (opt : String) : String :=
  String.mk (trimChars (stripLeadGlyph opt.data))

/-- Line 373: one serialized option line. -/
def optionLine (optIdx : Nat) (opt : String) : String :=
  "   " ++ optNum optIdx ++ " " ++ cleanOptText opt ++ "\n"

/-- Lines 367-379: the serialized block of one question at position `idx`. -/
def questionBlock (idx : Nat) (q : Question) : String :=
  (Nat.repr (idx + 1) ++ ". " ++ q.text ++ " (" ++ q.type ++ ")\n") ++
    (if !q.isOpen && !q.options.isEmpty then
      String.join (q.options.enum.map fun p => optionLine p.1 p.2)
    else if q.isOpen then "   [주관식 응답]\n"
    else "") ++ "\n"

/-- `questionsToText` (lines 362-381): the Canonical Serializer. -/
def questionsToText (qs : List Question) : String :=
  String.join (qs.enum.map fun p => questionBlock p.1 p.2)

/-- `saveChanges` (lines 383-405).  The two `updateField` network calls are
external; `firstOk`/`secondOk` say whether each call resolves.  A rejection
throws, so the `catch` block runs and the state mutations after the failed
call never happen; on success `updateSurveyState` mirrors the text and the
dirty flag is cleared. -/
def saveChanges (firstOk secondOk : Bool) (s : StoreState) : StoreState :=
  if s.sessionId.isNone || !s.hasLocalChanges then s
  else if !firstOk then s
  else if !secondOk then s
  else
    { s with
      surveyDraft := questionsToText s.questions,
      finalSurvey := questionsToText s.questions,
      hasLocalChanges := false }

/-- The observable outcome of `handleExport`: the state after its save step,
whether the `exportSurvey` request was issued, and the value of the dirty
flag at that moment. -/
structure ExportOutcome where
  state : StoreState
  exportIssued : Bool
  dirtyAtExport : Bool
deriving DecidableEq

/-- `handleExport` (lines 407-426): bail out without a session id, save first
when dirty, then issue the export request unconditionally. -/
def handleExport (firstOk secondOk : Bool) (s : StoreState) : ExportOutcome :=
  if s.sessionId.isNone then ⟨s, false, false⟩
  else
    let s1 := if s.hasLocalChanges then saveChanges firstOk secondOk s else s
    ⟨s1, true, s1.hasLocalChanges⟩

/-- The scenario draft of the specification (§8). -/
def c2Draft : String :=
  "문항 1. 만족하십니까? (SC)\n① 예\n② 아니오\n\n문항 2. 의견을 말해주세요 (OQ)"

/-- A sample parsed question used to instantiate universally quantified
theorems. -/
def qSample : Question := ⟨"q_0", "1", "질문", ["예", "아니오"], "SC", false⟩

/-- A sample store state with a known session and unsaved local edits. -/
def sSample : StoreState :=
  ⟨some "sess", [qSample], groupQuestions [qSample], "", "", true⟩

/-- C1: parsing the scenario draft yields two questions, but reparsing its
canonical serialization yields none: the serializer emits plain `"N."` labels
(line 368) that neither question-boundary pattern (lines 157-160) accepts, so
the parse-serialize-reparse roundtrip does not preserve the question count. -/
theorem c1_serialize_reparse_collapses :
    (parseSurveyDraft c2Draft).length = 2 ∧
    parseSurveyDraft (questionsToText (parseSurveyDraft c2Draft)) = [] := by
  constructor
  · decide
  · decide

/-- C2: the scenario draft parses to exactly two questions, the first of type
`SC` with `isOpen = false` and options `["예", "아니오"]`, the second of type
`OQ` with `isOpen = true` and no options. -/
theorem c2_scenario_parse :
    (parseSurveyDraft c2Draft).length = 2 ∧
    (parseSurveyDraft c2Draft).map (fun q => (q.type, q.isOpen, q.options)) =
      [("SC", false, ["예", "아니오"]), ("OQ", true, [])] := by
  constructor
  · decide
  · decide

/-- C3: with a known session id and the dirty flag set, a rejection of the
first persistence call leaves the dirty flag set and the question sequence
unchanged, and the flag ends up cleared only when both calls succeed. -/
theorem c3_first_persist_failure_keeps_dirty
    (s : StoreState) (sid : String) (secondOk : Bool)
    (hsid : s.sessionId = some sid) (hdirty : s.hasLocalChanges = true) :
    (saveChanges false secondOk s).hasLocalChanges = true ∧
    (saveChanges false secondOk s).questions = s.questions ∧
    ∀ a b : Bool, (saveChanges a b s).hasLocalChanges = false → a = true ∧ b = true := by
  have h1 : s.sessionId.isNone = false := by rw [hsid]; rfl
  refine ⟨?_, ?_, ?_⟩
  · simp [saveChanges, h1, hdirty]
  · simp [saveChanges, h1, hdirty]
  · intro a b hab
    cases a <;> cases b <;> simp [saveChanges, h1, hdirty] at hab ⊢

/-- Witness for C3 at a concrete dirty state with a session id. -/
theorem c3_first_persist_failure_keeps_dirty_witness :
    (saveChanges false true sSample).hasLocalChanges = true ∧
    (saveChanges false true sSample).questions = sSample.questions := by
  have h := c3_first_persist_failure_keeps_dirty sSample "sess" true rfl rfl
  exact ⟨h.1, h.2.1⟩

/-- C4 counterexample: a concrete dirty state with a known session id where
the first persistence call of the save inside `handleExport` rejects: the
export request is still issued, and the dirty flag is `true` at that moment,
so the exported file can reflect stale (unsaved) edits. -/
theorem c4_export_with_failed_save_counterexample :
    sSample.sessionId = some "sess" ∧ sSample.hasLocalChanges = true ∧
    (handleExport false false sSample).exportIssued = true ∧
    (handleExport false false sSample).dirtyAtExport = true := by
  refine ⟨rfl, rfl, ?_, ?_⟩ <;> decide

/-- C4 amended: with a known session id and the dirty flag set, the export
operation first runs the save (its state at export time is exactly the
post-save state, and the export request is issued); when both persistence
calls succeed, the dirty flag is `false` at the moment the file-generation
request is issued. -/
theorem c4_export_after_successful_save
    (s : StoreState) (sid : String) (hsid : s.sessionId = some sid)
    (hdirty : s.hasLocalChanges = true) :
    (∀ a b : Bool, (handleExport a b s).state = saveChanges a b s ∧
      (handleExport a b s).exportIssued = true) ∧
    (handleExport true true s).dirtyAtExport = false := by
  have h1 : s.sessionId.isNone = false := by rw [hsid]; rfl
  refine ⟨?_, ?_⟩
  · intro a b
    constructor
    · simp [handleExport, h1, hdirty]
    · simp [handleExport, h1]
  · simp [handleExport, saveChanges, h1, hdirty]

/-- Witness for the amended C4 at a concrete dirty state. -/
theorem c4_export_after_successful_save_witness :
    (handleExport true true sSample).dirtyAtExport = false :=
  (c4_export_after_successful_save sSample "sess" rfl rfl).2

/-- Mapping a per-question function below the grouping loop is the same as
mapping it inside every produced group. -/
theorem groupGoF_map (φ : Question → Question) :
    ∀ (f : Nat) (qs : List Question) (i total : Nat),
      groupGoF f (qs.map φ) i total =
        (groupGoF f qs i total).map fun g => { g with questions := g.questions.map φ } := by
  intro f
  induction f with
  | zero => intro qs i total; cases qs <;> simp [groupGoF]
  | succ f ih =>
    intro qs i total
    cases qs with
    | nil => simp [groupGoF]
    | cons q qs =>
      have hc : φ q :: List.map φ qs = List.map φ (q :: qs) := rfl
      simp only [List.map_cons, groupGoF]
      rw [hc, ← List.map_take, ← List.map_drop, ih]

/-- Every question inside a group produced by the grouping loop occurs in the
list that was partitioned. -/
theorem groupGoF_mem :
    ∀ (f : Nat) (qs : List Question) (i total : Nat) (g : QuestionGroup),
      g ∈ groupGoF f qs i total → ∀ q ∈ g.questions, q ∈ qs := by
  intro f
  induction f with
  | zero =>
    intro qs i total g hg
    cases qs <;> simp [groupGoF] at hg
  | succ f ih =>
    intro qs i total g hg q hq
    cases qs with
    | nil => simp [groupGoF] at hg
    | cons q0 qs =>
      simp only [groupGoF, List.mem_cons] at hg
      rcases hg with rfl | hg
      · exact List.take_subset 10 _ hq
      · exact List.drop_subset 10 _ (ih _ _ _ _ hg q hq)

/-- After any `mapQuestions` edit, the grouped view equals the 10-wise
partition of the updated flat view, whenever it did before the edit. -/
theorem mapQuestions_sync (f : Question → Question) (s : StoreState)
    (hsync : s.questionGroups = groupQuestions s.questions) :
    (mapQuestions f s).questionGroups = groupQuestions (mapQuestions f s).questions := by
  simp only [mapQuestions, hsync, groupQuestions, List.length_map]
  rw [groupGoF_map]

/-- After any `mapQuestions` edit, every question of the grouped view occurs
in the flat view. -/
theorem mapQuestions_mem (f : Question → Question) (s : StoreState)
    (hsync : s.questionGroups = groupQuestions s.questions) :
    ∀ g ∈ (mapQuestions f s).questionGroups, ∀ q ∈ g.questions,
      q ∈ (mapQuestions f s).questions := by
  intro g hg q hq
  rw [mapQuestions_sync f s hsync] at hg
  exact groupGoF_mem _ _ _ _ g hg q hq

/-- C5: dual-view consistency.  Starting from any state whose grouped view is
the 10-wise partition of the flat sequence, each of the four edit operations
leaves the grouped view equal to the partition of the updated flat sequence,
and every question of the grouped view occurs, with identical content, in the
flat sequence. -/
theorem c5_dual_view_consistency (op : EditOp) (s : StoreState)
    (hsync : s.questionGroups = groupQuestions s.questions) :
    (applyEdit op s).questionGroups = groupQuestions (applyEdit op s).questions ∧
    ∀ g ∈ (applyEdit op s).questionGroups, ∀ q ∈ g.questions,
      q ∈ (applyEdit op s).questions := by
  cases op with
  | setText qid t => exact ⟨mapQuestions_sync _ _ hsync, mapQuestions_mem _ _ hsync⟩
  | setOption qid i t => exact ⟨mapQuestions_sync _ _ hsync, mapQuestions_mem _ _ hsync⟩
  | pushOption qid => exact ⟨mapQuestions_sync _ _ hsync, mapQuestions_mem _ _ hsync⟩
  | dropOption qid i => exact ⟨mapQuestions_sync _ _ hsync, mapQuestions_mem _ _ hsync⟩

/-- Witness for C5: a concrete synchronized state and a concrete edit. -/
theorem c5_dual_view_consistency_witness :
    (applyEdit (.dropOption "q_0" 0) sSample).questionGroups =
      groupQuestions ((applyEdit (.dropOption "q_0" 0) sSample).questions) :=
  (c5_dual_view_consistency (.dropOption "q_0" 0) sSample rfl).1

/-- Number of groups produced by the grouping loop, given sufficient fuel. -/
theorem groupGoF_length :
    ∀ (f : Nat) (qs : List Question) (i total : Nat), qs.length ≤ f →
      (groupGoF f qs i total).length = (qs.length + 9) / 10 := by
  intro f
  induction f with
  | zero =>
    intro qs i total h
    cases qs with
    | nil => simp [groupGoF]
    | cons q qs => simp at h
  | succ f ih =>
    intro qs i total h
    cases qs with
    | nil => simp [groupGoF]
    | cons q qs =>
      have hd : ((q :: qs).drop 10).length ≤ f := by
        simp only [List.length_drop, List.length_cons]
        simp only [List.length_cons] at h
        omega
      simp only [groupGoF, List.length_cons, ih _ _ _ hd, List.length_drop]
      simp only [List.length_cons] at h ⊢
      omega

/-- Fields of the `k`-th group produced by the grouping loop, given
sufficient fuel. -/
theorem groupGoF_get :
    ∀ (f : Nat) (qs : List Question) (i total : Nat), qs.length ≤ f →
      ∀ (k : Nat) (h : k < (groupGoF f qs i total).length),
        ((groupGoF f qs i total).get ⟨k, h⟩).startNum = i + 10 * k + 1 ∧
        ((groupGoF f qs i total).get ⟨k, h⟩).endNum = min (i + 10 * k + 10) total ∧
        (((groupGoF f qs i total).get ⟨k, h⟩).isExpanded = true ↔ i + 10 * k = 0) := by
  intro f
  induction f with
  | zero =>
    intro qs i total hle k h
    cases qs with
    | nil => simp [groupGoF] at h
    | cons q qs => simp at hle
  | succ f ih =>
    intro qs i total hle k h
    cases qs with
    | nil => simp [groupGoF] at h
    | cons q qs =>
      have hd : ((q :: qs).drop 10).length ≤ f := by
        simp only [List.length_drop, List.length_cons]
        simp only [List.length_cons] at hle
        omega
      cases k with
      | zero =>
        refine ⟨rfl, ?_, ?_⟩
        · show min (i + 10) total = min (i + 10 * 0 + 10) total
          omega
        · show (i == 0) = true ↔ i + 10 * 0 = 0
          rw [Nat.beq_eq_true_eq]
          omega
      | succ k =>
        have h2 : k < (groupGoF f ((q :: qs).drop 10) (i + 10) total).length := by
          simp only [groupGoF, List.length_cons] at h
          omega
        obtain ⟨h1, h2e, h3⟩ := ih ((q :: qs).drop 10) (i + 10) total hd k h2
        refine ⟨?_, ?_, ?_⟩
        · show ((groupGoF f ((q :: qs).drop 10) (i + 10) total).get ⟨k, h2⟩).startNum = _
          rw [h1]
          omega
        · show ((groupGoF f ((q :: qs).drop 10) (i + 10) total).get ⟨k, h2⟩).endNum = _
          rw [h2e]
          omega
        · show ((groupGoF f ((q :: qs).drop 10) (i + 10) total).get ⟨k, h2⟩).isExpanded = true ↔ _
          rw [h3]
          omega

/-- C6: the Group Paginator's shape: on a nonempty sequence of `n` questions
it produces `⌈n/10⌉` groups; group `k` has `startNum = 10k+1` and
`endNum = min(10k+10, n)`, so every non-final group ends at a multiple of 10
and the final group ends at `n`; only the first group starts expanded; and a
23-question sequence yields exactly the ranges `[1,10]`, `[11,20]`,
`[21,23]`. -/
theorem c6_group_paginator_shape (qs : List Question) (hpos : 0 < qs.length) :
    (groupQuestions qs).length = (qs.length + 9) / 10 ∧
    (∀ (k : Nat) (h : k < (groupQuestions qs).length),
      ((groupQuestions qs).get ⟨k, h⟩).startNum = 10 * k + 1 ∧
      ((groupQuestions qs).get ⟨k, h⟩).endNum = min (10 * k + 10) qs.length ∧
      (((groupQuestions qs).get ⟨k, h⟩).isExpanded = true ↔ k = 0)) ∧
    (∀ (k : Nat) (h : k < (groupQuestions qs).length),
      k + 1 < (groupQuestions qs).length →
      ((groupQuestions qs).get ⟨k, h⟩).endNum = 10 * (k + 1)) ∧
    (∀ (h : (groupQuestions qs).length - 1 < (groupQuestions qs).length),
      ((groupQuestions qs).get ⟨(groupQuestions qs).length - 1, h⟩).endNum = qs.length) ∧
    (groupQuestions (List.replicate 23 qSample)).map
        (fun g => (g.startNum, g.endNum, g.isExpanded)) =
      [(1, 10, true), (11, 20, false), (21, 23, false)] := by
  have hlen : (groupQuestions qs).length = (qs.length + 9) / 10 :=
    groupGoF_length qs.length qs 0 qs.length le_rfl
  have hget : ∀ (k : Nat) (h : k < (groupQuestions qs).length),
      ((groupQuestions qs).get ⟨k, h⟩).startNum = 0 + 10 * k + 1 ∧
      ((groupQuestions qs).get ⟨k, h⟩).endNum = min (0 + 10 * k + 10) qs.length ∧
      (((groupQuestions qs).get ⟨k, h⟩).isExpanded = true ↔ 0 + 10 * k = 0) :=
    groupGoF_get qs.length qs 0 qs.length le_rfl
  refine ⟨hlen, ?_, ?_, ?_, by decide⟩
  · intro k h
    obtain ⟨h1, h2, h3⟩ := hget k h
    refine ⟨by rw [h1]; omega, by rw [h2]; omega, by rw [h3]; omega⟩
  · intro k h hk1
    obtain ⟨h1, h2, h3⟩ := hget k h
    rw [h2]
    rw [hlen] at hk1
    omega
  · intro h
    obtain ⟨h1, h2, h3⟩ := hget ((groupQuestions qs).length - 1) h
    rw [h2]
    rw [hlen] at h ⊢
    omega

/-- Witness for C6 at a concrete 3-question sequence. -/
theorem c6_group_paginator_shape_witness :
    (groupQuestions (List.replicate 3 qSample)).length =
      ((List.replicate 3 qSample : List Question).length + 9) / 10 :=
  (c6_group_paginator_shape (List.replicate 3 qSample) (by decide)).1

/-- A non-open question with 13 options, for the serializer claims. -/
def q13 : Question :=
  ⟨"q_0", "1", "질문",
    ["o1","o2","o3","o4","o5","o6","o7","o8","o9","o10","o11","o12","o13"],
    "SC", false⟩

/-- C7: the serializer's option numbering: indices below 12 receive the
matching circled-numeral glyph, indices 12 and above receive the
parenthesized decimal of the 1-based position; serializing a non-open
question with 13 options therefore prefixes options 0-11 with ① through ⑫
and option 12 with `(13)`. -/
theorem c7_serializer_option_numbering :
    (∀ i : Nat, i < 12 → optNum i = circledNumbers.getD i "") ∧
    (∀ i : Nat, 12 ≤ i → optNum i = "(" ++ Nat.repr (i + 1) ++ ")") ∧
    optNum 12 = "(13)" ∧
    questionsToText [q13] =
      "1. 질문 (SC)\n   ① o1\n   ② o2\n   ③ o3\n   ④ o4\n   ⑤ o5\n   ⑥ o6\n   ⑦ o7\n   ⑧ o8\n   ⑨ o9\n   ⑩ o10\n   ⑪ o11\n   ⑫ o12\n   (13) o13\n\n" := by
  refine ⟨?_, ?_, by decide, by decide⟩
  · intro i h
    simp [optNum, h]
  · intro i h
    rw [optNum, if_neg (by omega)]

/-- Witness for C7 at concrete indices on both sides of the cutoff. -/
theorem c7_serializer_option_numbering_witness :
    optNum 0 = circledNumbers.getD 0 "" ∧ optNum 12 = "(" ++ Nat.repr 13 ++ ")" :=
  ⟨c7_serializer_option_numbering.1 0 (by decide),
   c7_serializer_option_numbering.2.1 12 (by decide)⟩

/-- A type-code token match always yields a member of the closed set. -/
theorem typeTokenAt_mem (l : List Char) (c : String) (r : List Char)
    (h : typeTokenAt l = some (c, r)) : c ∈ typeCodes := by
  unfold typeTokenAt at h
  repeat' split at h
  all_goals simp_all
  all_goals
    first
      | exact h.2.1 ▸ h.1
      | exact h.2.2.1 ▸ h.1

/-- A found type code is always a member of the closed set. -/
theorem findTypeCode_mem : ∀ (l : List Char) (c : String),
    findTypeCode l = some c → c ∈ typeCodes := by
  intro l
  induction l with
  | nil => intro c h; simp [findTypeCode] at h
  | cons a as ih =>
    intro c h
    rcases hT : typeTokenAt (a :: as) with _ | ⟨code, r⟩
    · rw [findTypeCode, hT] at h
      exact ih c h
    · rw [findTypeCode, hT] at h
      simp only [Option.some.injEq] at h
      subst h
      exact typeTokenAt_mem _ _ _ hT

/-- The extracted type of any line is a member of the closed set. -/
theorem extractType_mem (l : List Char) : extractType l ∈ typeCodes := by
  unfold extractType
  rcases h : findTypeCode l with _ | c
  · decide
  · simpa using findTypeCode_mem l c h

/-- Every question emitted by the assembler loop carries a type from the
closed set, provided the accumulated question (if any) does. -/
theorem parseLoop_types :
    ∀ (ls : List (List Char)) (cur : Option Question) (n : Nat),
      (∀ q, cur = some q → q.type ∈ typeCodes) →
      ∀ p ∈ parseLoop ls cur n, p.type ∈ typeCodes := by
  intro ls
  induction ls with
  | nil =>
    intro cur n hcur p hp
    cases cur with
    | none => simp [parseLoop] at hp
    | some q =>
      simp only [parseLoop, List.mem_singleton] at hp
      subst hp
      exact hcur p rfl
  | cons l ls ih =>
    intro cur n hcur p hp
    simp only [parseLoop] at hp
    by_cases hemp : (trimChars l).isEmpty
    · rw [if_pos hemp] at hp
      exact ih cur n hcur p hp
    · rw [if_neg hemp] at hp
      rcases hB : matchBoundary (trimChars l) with _ | ⟨num, rest⟩
      · simp only [hB] at hp
        cases cur with
        | none => exact ih _ _ (by intro q hq; cases hq) p hp
        | some q =>
          rcases hO : extractOption (trimChars l) with _ | opt
          · simp only [hO] at hp
            refine ih _ _ ?_ p hp
            intro q' hq'
            simp only [Option.some.injEq] at hq'
            subst hq'
            exact hcur q rfl
          · simp only [hO] at hp
            refine ih _ _ ?_ p hp
            intro q' hq'
            simp only [Option.some.injEq] at hq'
            subst hq'
            show q.type ∈ typeCodes
            exact hcur q rfl
      · simp only [hB] at hp
        cases cur with
        | some q =>
          rcases List.mem_cons.mp hp with rfl | hp2
          · exact hcur p rfl
          · refine ih _ _ ?_ p hp2
            intro q' hq'
            simp only [Option.some.injEq] at hq'
            subst hq'
            exact extractType_mem _
        | none =>
          refine ih _ _ ?_ p hp
          intro q' hq'
          simp only [Option.some.injEq] at hq'
          subst hq'
          exact extractType_mem _

/-- C8: every question produced by the parser carries a type code from the
closed six-plus-one letter-pair set; when no type-code token occurs on the
line, the extracted type defaults to `SC`; and every member of the closed set
is attained by some draft. -/
theorem c8_type_codes_closed_set :
    (∀ draft : String, ∀ p ∈ parseSurveyDraft draft, p.type ∈ typeCodes) ∧
    (∀ line : List Char, findTypeCode line = none → extractType line = "SC") ∧
    (typeCodes.all fun c =>
      (parseSurveyDraft ("문항 1. x (" ++ c ++ ")")).any fun q => q.type == c) = true := by
  refine ⟨?_, ?_, by decide⟩
  · intro draft p hp
    unfold parseSurveyDraft at hp
    split at hp
    · simp at hp
    · split at hp
      · simp at hp
      · exact parseLoop_types _ none 0 (by intro q h; cases h) p hp
  · intro line h
    unfold extractType
    rw [h]
    rfl

/-- Witness for C8: the first claim applied to a concrete draft and its
concrete parsed question. -/
theorem c8_type_codes_closed_set_witness :
    (⟨"q_0", "1", "x", [], "MA", false⟩ : Question).type ∈ typeCodes :=
  c8_type_codes_closed_set.1 "문항 1. x (MA)" _ (by decide)

/-- With no accumulated question, the assembler loop ignores every line that
matches no question-boundary pattern. -/
theorem parseLoop_no_boundary :
    ∀ (ls : List (List Char)) (n : Nat),
      (∀ l ∈ ls, matchBoundary (trimChars l) = none) →
      parseLoop ls none n = [] := by
  intro ls
  induction ls with
  | nil => intro n h; rfl
  | cons l ls ih =>
    intro n h
    have hl := h l (by simp)
    have hrest : ∀ x ∈ ls, matchBoundary (trimChars x) = none :=
      fun x hx => h x (by simp [hx])
    simp only [parseLoop, hl]
    split
    · exact ih n hrest
    · exact ih n hrest

/-- With no accumulated question, the assembler loop skips any leading block
of lines that match no question-boundary pattern. -/
theorem parseLoop_skip_pre :
    ∀ (pre rest : List (List Char)) (n : Nat),
      (∀ l ∈ pre, matchBoundary (trimChars l) = none) →
      parseLoop (pre ++ rest) none n = parseLoop rest none n := by
  intro pre
  induction pre with
  | nil => intro rest n h; rfl
  | cons l pre ih =>
    intro rest n h
    have hl := h l (by simp)
    have hrest : ∀ x ∈ pre, matchBoundary (trimChars x) = none :=
      fun x hx => h x (by simp [hx])
    simp only [List.cons_append, parseLoop, hl]
    split
    · exact ih rest n hrest
    · exact ih rest n hrest

/-- C9: lines before the first question-boundary match contribute to no
question: the loop skips any leading non-boundary block, a draft whose
processed lines contain no boundary match parses to the empty sequence, and
in particular the empty draft, a whitespace-only draft, and a draft of only
option-marker and plain lines parse to the empty sequence. -/
theorem c9_preboundary_lines_ignored :
    (∀ draft : String,
      (∀ l ∈ splitLines (preNormalize draft.data), matchBoundary (trimChars l) = none) →
      parseSurveyDraft draft = []) ∧
    (∀ (pre rest : List (List Char)) (n : Nat),
      (∀ l ∈ pre, matchBoundary (trimChars l) = none) →
      parseLoop (pre ++ rest) none n = parseLoop rest none n) ∧
    parseSurveyDraft "" = [] ∧ parseSurveyDraft " \n\t " = [] ∧
    parseSurveyDraft "① 예\n② 아니오\nsome text" = [] := by
  refine ⟨?_, parseLoop_skip_pre, by decide, by decide, by decide⟩
  intro draft h
  unfold parseSurveyDraft
  split
  · rfl
  · split
    · rfl
    · exact parseLoop_no_boundary _ 0 h

/-- Witness for C9: a concrete boundary-free draft parses to the empty
sequence. -/
theorem c9_preboundary_lines_ignored_witness :
    parseSurveyDraft "hello\n- world" = [] :=
  c9_preboundary_lines_ignored.1 "hello\n- world" (by decide)

/-- The positional filter keeps every element when the compared index lies
outside the positions it will visit. -/
theorem rmOptGo_out_of_range (i : Int) :
    ∀ (os : List String) (k : Nat),
      (i < (k : Int) ∨ (k : Int) + os.length ≤ i) → rmOptGo i k os = os := by
  intro os
  induction os with
  | nil => intro k h; rfl
  | cons o os ih =>
    intro k h
    simp only [List.length_cons] at h
    have hne : ¬((k : Int) = i) := by push_cast at h ⊢; omega
    rw [rmOptGo, if_neg hne, ih (k + 1) (by push_cast at h ⊢; omega)]

/-- Mapping a function that fixes every member of a list is the identity. -/
theorem map_id_of_mem {α : Type} (f : α → α) :
    ∀ l : List α, (∀ a ∈ l, f a = a) → l.map f = l := by
  intro l
  induction l with
  | nil => intro h; rfl
  | cons a l ih =>
    intro h
    simp only [List.map_cons, h a (by simp), ih fun x hx => h x (by simp [hx])]

/-- C10: removing an option at an index outside the target question's option
range is a total no-op on both views' questions (no error is possible and
nothing changes), yet it still sets the dirty flag. -/
theorem c10_remove_option_out_of_range
    (s : StoreState) (qid : String) (i : Int)
    (hflat : ∀ q ∈ s.questions, q.id = qid → i < 0 ∨ (q.options.length : Int) ≤ i)
    (hgrp : ∀ g ∈ s.questionGroups, ∀ q ∈ g.questions, q.id = qid →
      i < 0 ∨ (q.options.length : Int) ≤ i) :
    (removeOption qid i s).questions = s.questions ∧
    (removeOption qid i s).questionGroups = s.questionGroups ∧
    (removeOption qid i s).hasLocalChanges = true := by
  have hfix : ∀ q : Question, (i < 0 ∨ (q.options.length : Int) ≤ i) →
      rmOptFn qid i q = q := by
    intro q hq
    unfold rmOptFn
    by_cases hid : q.id == qid
    · rw [if_pos hid, rmOptGo_out_of_range i q.options 0 (by push_cast; omega)]
    · rw [if_neg hid]
  have hq : (removeOption qid i s).questions = s.questions.map (rmOptFn qid i) := rfl
  have hg2 : (removeOption qid i s).questionGroups =
      s.questionGroups.map (fun g => { g with questions := g.questions.map (rmOptFn qid i) }) := rfl
  have hfixAll : ∀ (l : List Question),
      (∀ q ∈ l, q.id = qid → i < 0 ∨ (q.options.length : Int) ≤ i) →
      l.map (rmOptFn qid i) = l := by
    intro l hl
    apply map_id_of_mem
    intro q hq2
    by_cases hid : q.id == qid
    · exact hfix q (hl q hq2 (eq_of_beq hid))
    · unfold rmOptFn
      rw [if_neg hid]
  refine ⟨?_, ?_, rfl⟩
  · rw [hq]
    exact hfixAll s.questions hflat
  · rw [hg2]
    apply map_id_of_mem
    intro g hg
    rw [hfixAll g.questions (hgrp g hg)]

/-- Witness for C10: a concrete state and an out-of-range index. -/
theorem c10_remove_option_out_of_range_witness :
    (removeOption "q_0" 5 sSample).questions = sSample.questions ∧
    (removeOption "q_0" 5 sSample).hasLocalChanges = true := by
  have h := c10_remove_option_out_of_range sSample "q_0" 5 (by decide) (by decide)
  exact ⟨h.1, h.2.2⟩

end Survey
